import Mathlib

/-!
Shallow embedding of the resume-job matcher's core scoring pipeline
(backend/ml: skill_extractor.py, scorer.py, similarity.py, pipeline.py,
constants.py), together with theorems settling the specification claims.
-/

/-! ## Text utilities shared by several modules -/

/-- The ASCII whitespace characters recognized both by the stripping helper
and by the regex whitespace class used in the experience extractor. -/
def pyIsSpace (c : Char) : Bool :=
  c == ' ' || c == '\t' || c == '\n' || c == '\r' || c == '\x0b' || c == '\x0c'

/-- Remove leading and trailing whitespace from a character list. -/
def pyStripChars (l : List Char) : List Char :=
  ((l.dropWhile pyIsSpace).reverse.dropWhile pyIsSpace).reverse

/-- Model of Python str.strip: remove leading and trailing whitespace. -/
def pyStrip (s : String) : String :=
  ⟨pyStripChars s.data⟩

/-- Character class kept by the skill normalizer: lowercase letters, digits,
plus sign and space. -/
def isAllowedChar (c : Char) : Bool :=
  c.isLower || c.isDigit || c == '+' || c == ' '

/-! ## skill_extractor.py -/

/-- Embedding of normalize_text: lowercase each character, then replace every
character outside lowercase letters, digits, plus and space with a space. -/
def normalizeChars (l : List Char) : List Char :=
  l.map (fun c => if isAllowedChar c.toLower then c.toLower else ' ')

/-- String-level wrapper for the normalizer in skill_extractor.py. -/
def normalize_text (text : String) : String :=
  ⟨normalizeChars text.data⟩

/-- Check whether the first character list is a prefix of the second. -/
def startsWithChars : List Char → List Char → Bool
  | [], _ => true
  | _ :: _, [] => false
  | p :: ps, t :: ts => p == t && startsWithChars ps ts

/-- Python substring containment on character lists, as in the expression
skill in normalized_text. -/
def isSubstrChars (p : List Char) : List Char → Bool
  | [] => startsWithChars p []
  | c :: ts => startsWithChars p (c :: ts) || isSubstrChars p ts

/-- The curated skill vocabulary from constants.py, in source order. -/
def RECOGNIZED_SKILLS : List String :=
  [ "python", "java", "c++", "c", "javascript", "typescript"
  , "go", "golang", "rust", "scala", "kotlin", "bash"
  , "sql", "r", "matlab"
  , "machine learning", "deep learning", "artificial intelligence"
  , "supervised learning", "unsupervised learning"
  , "reinforcement learning"
  , "nlp", "natural language processing"
  , "computer vision", "cv"
  , "speech recognition", "text classification"
  , "information retrieval", "recommendation systems"
  , "pytorch", "tensorflow", "keras", "scikit-learn"
  , "xgboost", "lightgbm", "catboost"
  , "huggingface", "transformers"
  , "opencv", "spacy", "nltk"
  , "pandas", "numpy", "scipy"
  , "data analysis", "data science", "data engineering"
  , "feature engineering", "data preprocessing"
  , "data visualization"
  , "power bi", "tableau"
  , "fastapi", "django", "flask"
  , "node.js", "express"
  , "rest api", "graphql"
  , "microservices"
  , "mysql", "postgresql", "sqlite"
  , "mongodb", "redis", "elasticsearch"
  , "cassandra", "dynamodb"
  , "docker", "kubernetes", "helm"
  , "ci/cd", "github actions"
  , "mlops", "model deployment"
  , "model monitoring"
  , "aws", "gcp", "azure"
  , "ec2", "s3", "lambda"
  , "cloud functions"
  , "data structures", "algorithms"
  , "operating systems", "computer networks"
  , "dbms", "system design"
  , "distributed systems"
  , "parallel computing"
  , "object oriented programming", "oop"
  , "design patterns", "clean architecture"
  , "unit testing", "integration testing"
  , "debugging", "performance optimization"
  , "git", "github", "gitlab"
  , "linux", "unix"
  , "jira", "confluence"
  , "docker compose"
  , "transformer models", "llms"
  , "attention mechanism"
  , "bert", "gpt"
  , "time series forecasting"
  , "anomaly detection" ]

/-- Embedding of extract_skills: empty or whitespace-only text yields no
skills; otherwise keep every vocabulary skill occurring as a substring of the
normalized text. The result is a duplicate-free list standing for the Python
set. -/
def extract_skills (text : String) : List String :=
  if text = "" || pyStrip text = "" then []
  else RECOGNIZED_SKILLS.filter (fun sk => isSubstrChars sk.data (normalize_text text).data)

/-- Computable lexicographic comparison of character lists by code point,
the order Python uses to compare strings. -/
def charListLeb : List Char → List Char → Bool
  | [], _ => true
  | _ :: _, [] => false
  | a :: as, b :: bs =>
    if a < b then true else if b < a then false else charListLeb as bs

/-- Computable string comparison underlying the ascending sort. -/
def strLeb (a b : String) : Bool :=
  charListLeb a.data b.data

/-- Ascending sort of a list of strings, as the Python builtin sorted. -/
def sortStrings (l : List String) : List String :=
  l.insertionSort (fun a b => strLeb a b = true)

/-- Embedding of match_skills: extract skills from both texts; if the job
description requires none, return no matches, no gaps and a perfect ratio;
otherwise intersect and subtract the skill sets, sort both results
ascending, and divide the matched count by the required count. -/
def match_skills (resume_text job_description_text : String) :
    List String × List String × ℚ :=
  let resume_skills := extract_skills resume_text
  let jd_required_skills := extract_skills job_description_text
  if jd_required_skills = [] then ([], [], 1)
  else
    let matched_skills := resume_skills.filter (fun s => decide (s ∈ jd_required_skills))
    let missing_skills := jd_required_skills.filter (fun s => decide (s ∉ resume_skills))
    (sortStrings matched_skills,
     sortStrings missing_skills,
     mkRat matched_skills.length jd_required_skills.length)

/-! ## scorer.py: experience extraction -/

/-- Split a character list into its maximal digit prefix and the rest. -/
def splitDigits (l : List Char) : List Char × List Char :=
  (l.takeWhile Char.isDigit, l.dropWhile Char.isDigit)

/-- Numeric value of a digit string. -/
def natOfDigits (l : List Char) : ℕ :=
  l.foldl (fun acc c => 10 * acc + (c.toNat - 48)) 0

/-- Rational value of an integer part and a fractional digit part, the value
the Python code obtains with float on the captured group. Written with mkRat
so that concrete inputs evaluate inside the kernel. -/
def mkYearVal (d1 d2 : List Char) : ℚ :=
  mkRat (natOfDigits d1 * 10 ^ d2.length + natOfDigits d2) (10 ^ d2.length)

/-- Match the regex tail after the captured number: optional whitespace,
optional plus, optional whitespace, the word year with an optional s.
Returns the remaining characters after the match, or none. -/
def yearSuffixRest (l : List Char) : Option (List Char) :=
  let l1 := l.dropWhile pyIsSpace
  let l2 := match l1 with
    | '+' :: r => r
    | _ => l1
  let l3 := l2.dropWhile pyIsSpace
  match l3 with
  | 'y' :: 'e' :: 'a' :: 'r' :: rest =>
    match rest with
    | 's' :: r2 => some r2
    | _ => some rest
  | _ => none

/-- Attempt the year regex at the current position: a digit run, an optional
dot-and-digits fraction, then the year suffix. Mirrors the backtracking of
the Python pattern, whose fraction fallback can never succeed because a dot
cannot start the suffix. -/
def tryYearMatch (l : List Char) : Option (ℚ × List Char) :=
  let p1 := splitDigits l
  if p1.1 = [] then none
  else
    match p1.2 with
    | '.' :: r =>
      let p2 := splitDigits r
      if p2.1 = [] then none
      else
        match yearSuffixRest p2.2 with
        | some rem => some (mkYearVal p1.1 p2.1, rem)
        | none => none
    | r1 =>
      match yearSuffixRest r1 with
      | some rem => some (mkYearVal p1.1 [], rem)
      | none => none

/-- Scan the text left to right as re.findall does: at each position try the
pattern, on success emit the captured number and continue after the match,
on failure advance one character. The fuel argument starts at the text
length and dominates the recursion because every step consumes at least one
character. -/
def scanYears : ℕ → List Char → List ℚ
  | 0, _ => []
  | _, [] => []
  | fuel + 1, c :: rest =>
    if c.isDigit then
      match tryYearMatch (c :: rest) with
      | some qrem => qrem.1 :: scanYears fuel qrem.2
      | none => scanYears fuel rest
    else scanYears fuel rest

/-- Embedding of extract_years_of_experience: lowercase the text, collect
every number captured by the year pattern, and return the maximum, or zero
when there is no match. -/
def extract_years_of_experience (text : String) : ℚ :=
  let lowered := text.data.map Char.toLower
  let year_mentions := scanYears lowered.length lowered
  match year_mentions with
  | [] => 0
  | q :: qs => qs.foldl max q

/-- Embedding of compute_experience_score: perfect score when the job
description states no positive requirement, otherwise the capped and
clamped ratio of candidate years to required years. -/
def compute_experience_score (resume_text job_description_text : String) : ℚ :=
  let candidate_years := extract_years_of_experience resume_text
  let required_years := extract_years_of_experience job_description_text
  if required_years ≤ 0 then 1
  else max 0 (min (candidate_years / required_years) 1)

/-! ## constants.py: scoring weights, and scorer.py: final score -/

noncomputable section RealScoring

/-- Weight of the semantic similarity signal, from constants.py. -/
def SEMANTIC_SIMILARITY_WEIGHT : ℝ := 0.6

/-- Weight of the keyword skill overlap signal, from constants.py. -/
def SKILL_MATCH_WEIGHT : ℝ := 0.3

/-- Weight of the experience alignment signal, from constants.py. -/
def EXPERIENCE_MATCH_WEIGHT : ℝ := 0.1

/-- Rounding to two decimal places, as Python round with ndigits 2. -/
def pyRound2 (x : ℝ) : ℝ :=
  ((round (x * 100) : ℤ) : ℝ) / 100

/-- Rounding to three decimal places, as Python round with ndigits 3. -/
def pyRound3 (x : ℝ) : ℝ :=
  ((round (x * 1000) : ℤ) : ℝ) / 1000

/-- Embedding of compute_final_score: weight each component, sum, scale to
a percentage, and round to two decimal places. -/
def compute_final_score (semantic_similarity skill_overlap experience_score : ℝ) : ℝ :=
  let weighted_semantic := SEMANTIC_SIMILARITY_WEIGHT * semantic_similarity
  let weighted_skills := SKILL_MATCH_WEIGHT * skill_overlap
  let weighted_experience := EXPERIENCE_MATCH_WEIGHT * experience_score
  let raw_score := weighted_semantic + weighted_skills + weighted_experience
  let fit_score_percentage := raw_score * 100
  pyRound2 fit_score_percentage

/-! ## similarity.py -/

end RealScoring

/-- A numpy ndarray modelled by its shape and its flat data. -/
structure NDArray where
  shape : List ℕ
  data : List ℝ

/-- Total number of entries, the numpy size attribute. -/
def NDArray.size (a : NDArray) : ℕ := a.shape.prod

/-- Number of axes, the numpy ndim attribute. -/
def NDArray.ndim (a : NDArray) : ℕ := a.shape.length

/-- Number of rows of a two-dimensional array. -/
def NDArray.rowCount (a : NDArray) : ℕ := a.shape.getD 0 0

/-- Width of each row of a two-dimensional array. -/
def NDArray.dim1 (a : NDArray) : ℕ := a.shape.getD 1 0

/-- Cut a flat data list into the given number of rows of the given width. -/
def chunkRows (d : ℕ) : ℕ → List ℝ → List (List ℝ)
  | 0, _ => []
  | n + 1, l => l.take d :: chunkRows d n (l.drop d)

/-- The rows of a two-dimensional array. -/
def NDArray.rows (a : NDArray) : List (List ℝ) :=
  chunkRows a.dim1 a.rowCount a.data

noncomputable section RealSimilarity

/-- Dot product of two vectors. -/
def dotp (u v : List ℝ) : ℝ :=
  (List.zipWith (fun x y => x * y) u v).sum

/-- Cosine similarity of two vectors, as sklearn computes it; a zero vector
yields similarity zero, matching the normalize-with-zero-norm convention. -/
def cosineSim (u v : List ℝ) : ℝ :=
  dotp u v / (Real.sqrt (dotp u u) * Real.sqrt (dotp v v))

/-- Maximum entry of a row of similarities, the numpy max over axis one. -/
def rowMaxVal (l : List ℝ) : ℝ :=
  l.maximum.unbot' 0

/-- Arithmetic mean of a list, the numpy mean. -/
def meanList (l : List ℝ) : ℝ :=
  l.sum / (l.length : ℝ)

/-- Clamp into the unit interval, the numpy clip with bounds zero and one. -/
def clip01 (x : ℝ) : ℝ :=
  min (max x 0) 1

/-- The validation failure condition of validate_embeddings: either matrix
empty, either matrix not two-dimensional, or mismatched vector width. -/
def errCond (s t : NDArray) : Prop :=
  s.size = 0 ∨ t.size = 0 ∨ s.ndim ≠ 2 ∨ t.ndim ≠ 2 ∨ s.dim1 ≠ t.dim1

instance errCond.dec (s t : NDArray) : Decidable (errCond s t) := by
  unfold errCond; infer_instance

/-- The success value of the coverage computation: mean over source rows of
the maximum cosine similarity against the target rows, clamped into the
unit interval. -/
def semanticCoverage (s t : NDArray) : ℝ :=
  clip01 (meanList (s.rows.map (fun srow => rowMaxVal (t.rows.map (fun trow => cosineSim srow trow)))))

/-- Embedding of average_max_cosine_similarity with the validation checks of
validate_embeddings performed in source order; a validation failure becomes
an error value carrying the ValueError message. -/
def average_max_cosine_similarity (source target : NDArray) : Except String ℝ :=
  if source.size = 0 then
    .error ("source_embeddings is empty. Need at least one source sentence.")
  else if target.size = 0 then
    .error ("target_embeddings is empty. Need at least one target sentence.")
  else if source.ndim ≠ 2 then
    .error ("source_embeddings must be 2D array, got shape " ++ toString source.shape)
  else if target.ndim ≠ 2 then
    .error ("target_embeddings must be 2D array, got shape " ++ toString target.shape)
  else if source.dim1 ≠ target.dim1 then
    .error ("Embedding dimension mismatch: source has " ++ toString source.dim1 ++
      " dimensions, target has " ++ toString target.dim1 ++
      " dimensions. Both must use same embedding model.")
  else
    .ok (semanticCoverage source target)

end RealSimilarity

/-! ## pipeline.py -/

/-- Replace each newline with a space, as text.replace in the tokenizer. -/
def collapseNewlines (l : List Char) : List Char :=
  l.map (fun c => if c == '\n' then ' ' else c)

/-- Split a character list at every dot, keeping empty fragments, exactly as
the Python str.split with a dot separator. -/
def splitOnDot : List Char → List (List Char)
  | [] => [[]]
  | c :: rest =>
    if c == '.' then [] :: splitOnDot rest
    else
      match splitOnDot rest with
      | [] => [[c]]
      | h :: t => (c :: h) :: t

/-- The stripped non-empty fragments of a text: collapse newlines, split on
dots, strip each fragment, and drop the empty ones. -/
def mkFragments (text : String) : List String :=
  ((splitOnDot (collapseNewlines text.data)).map
    (fun l => (⟨pyStripChars l⟩ : String))).filter (fun s => decide (s ≠ ""))

/-- Embedding of tokenize_into_sentences: empty or whitespace text yields a
single empty sentence; otherwise split into stripped fragments, falling
back to the whole original text when no fragment survives. -/
def tokenize_into_sentences (text : String) : List String :=
  if text = "" || pyStrip text = "" then [""]
  else
    let sentences := mkFragments text
    if sentences = [] then [text] else sentences

/-- Embedding of generate_explanation. The two-decimal float formatting of
the Python f-string is supplied as the function argument fmt, since number
formatting is not part of any verified claim. -/
def generate_explanation (fmt : ℝ → String) (semantic_similarity : ℝ)
    (matched_skills missing_skills : List String) (experience_score : ℝ) : String :=
  "Semantic match score is " ++ fmt semantic_similarity ++ ". Matched " ++
    toString matched_skills.length ++ " required skill" ++
    (if matched_skills.length ≠ 1 then "s" else "") ++
    ". Experience alignment score is " ++ fmt experience_score ++
    ". Missing skills include: " ++
    (if missing_skills = [] then "None" else String.intercalate (", ") missing_skills) ++ "."

/-- The result record assembled by the evaluate method. -/
structure EvalResult where
  fit_score : ℝ
  semantic_similarity_score : ℝ
  matched_skills : List String
  missing_skills : List String
  experience_match_score : ℝ
  explanation : String

/-- Embedding of ResumeJobFitPipeline.evaluate. The embedding model is the
function argument enc, an external collaborator mapping a sentence batch to
an embedding matrix; fmt models the float formatting used only inside the
explanation string. A validation error from the similarity step aborts the
evaluation and is returned unchanged. -/
noncomputable def ResumeJobFitPipeline.evaluate (enc : List String → NDArray)
    (fmt : ℝ → String) (resume_text job_description_text : String) :
    Except String EvalResult :=
  let resume_sentences := tokenize_into_sentences resume_text
  let jd_sentences := tokenize_into_sentences job_description_text
  let resume_embeddings := enc resume_sentences
  let jd_embeddings := enc jd_sentences
  match average_max_cosine_similarity jd_embeddings resume_embeddings with
  | .error e => .error e
  | .ok semantic_similarity =>
    let ms := match_skills resume_text job_description_text
    let experience_score : ℝ := ((compute_experience_score resume_text job_description_text : ℚ) : ℝ)
    let final_fit_score := compute_final_score semantic_similarity ((ms.2.2 : ℚ) : ℝ) experience_score
    .ok { fit_score := final_fit_score
        , semantic_similarity_score := pyRound3 semantic_similarity
        , matched_skills := ms.1
        , missing_skills := ms.2.1
        , experience_match_score := pyRound3 experience_score
        , explanation := generate_explanation fmt semantic_similarity ms.1 ms.2.1 experience_score }

/-! ## Concrete collaborators and matrices used to instantiate theorems -/

/-- A fixed two-decimal formatter standing in for the Python f-string. -/
noncomputable def wFmt : ℝ → String := fun _ => "0.00"

/-- A broken embedder returning an empty matrix, violating the contract. -/
def wEncBad : List String → NDArray := fun _ => { shape := [0, 2], data := [] }

/-- A well-behaved embedder returning one-dimensional unit rows. -/
noncomputable def wEncOk : List String → NDArray :=
  fun ts => { shape := [ts.length, 1], data := List.replicate ts.length 1 }

/-- A concrete one-row source matrix. -/
noncomputable def wMs : NDArray := { shape := [1, 2], data := [1, 0] }

/-- A concrete two-row target matrix. -/
noncomputable def wMt : NDArray := { shape := [2, 2], data := [1, 0, 0, 1] }

/-- The target matrix with its two rows swapped. -/
noncomputable def wMtSwap : NDArray := { shape := [2, 2], data := [0, 1, 1, 0] }

/-! ## Support lemmas for the skill matcher -/

theorem charListLeb_iff (x : List Char) :
    ∀ y, charListLeb x y = true ↔ ¬ List.Lex (· < ·) y x := by
  induction x with
  | nil =>
    intro y
    constructor
    · intro _ h
      exact List.Lex.not_nil_right _ _ h
    · intro _
      rfl
  | cons a as ih =>
    intro y
    cases y with
    | nil =>
      rw [show charListLeb (a :: as) [] = false from rfl]
      simp only [Bool.false_eq_true, false_iff, not_not]
      exact List.Lex.nil
    | cons b bs =>
      by_cases hab : a < b
      · have hnl : ¬ List.Lex (· < ·) (b :: bs) (a :: as) := by
          intro h
          cases h with
          | cons h' => exact absurd hab (lt_irrefl _)
          | rel h' => exact absurd h' (asymm hab)
        simp [charListLeb, hab, hnl]
      · by_cases hba : b < a
        · have hl : List.Lex (· < ·) (b :: bs) (a :: as) := List.Lex.rel hba
          simp [charListLeb, hab, hba, hl]
        · have heq : a = b := le_antisymm (le_of_not_lt hba) (le_of_not_lt hab)
          subst heq
          rw [show charListLeb (a :: as) (a :: bs) = charListLeb as bs by
            simp [charListLeb, lt_irrefl]]
          rw [ih bs]
          constructor
          · intro h hlex
            exact h (List.Lex.cons_iff.mp hlex)
          · intro h hlex
            exact h (List.Lex.cons hlex)

theorem strLeb_iff (a b : String) : strLeb a b = true ↔ a ≤ b := by
  rw [String.le_iff_toList_le, ← not_lt]
  exact charListLeb_iff a.data b.data

theorem strLeR_total : ∀ a b : String, strLeb a b = true ∨ strLeb b a = true := by
  intro a b
  rw [strLeb_iff, strLeb_iff]
  exact le_total a b

theorem strLeR_trans : ∀ a b c : String,
    strLeb a b = true → strLeb b c = true → strLeb a c = true := by
  intro a b c hab hbc
  rw [strLeb_iff] at hab hbc ⊢
  exact le_trans hab hbc

theorem sortStrings_perm (l : List String) : (sortStrings l).Perm l :=
  List.perm_insertionSort _ l

theorem sortStrings_length (l : List String) : (sortStrings l).length = l.length :=
  (sortStrings_perm l).length_eq

theorem sortStrings_toFinset (l : List String) : (sortStrings l).toFinset = l.toFinset :=
  List.toFinset_eq_of_perm _ _ (sortStrings_perm l)

theorem sortStrings_sorted (l : List String) : List.Sorted (· ≤ ·) (sortStrings l) := by
  have h := @List.sorted_insertionSort String (fun a b => strLeb a b = true) _
    ⟨strLeR_total⟩ ⟨strLeR_trans⟩ l
  exact h.imp (fun hab => (strLeb_iff _ _).mp hab)

theorem mkRat_nat_eq_div (a b : ℕ) : mkRat a b = (a : ℚ) / (b : ℚ) := by
  rw [Rat.mkRat_eq_divInt, Rat.divInt_eq_div]
  push_cast
  rfl

/-! ## Support lemmas for the experience extractor -/

theorem mkYearVal_nonneg (d1 d2 : List Char) : 0 ≤ mkYearVal d1 d2 := by
  rw [mkYearVal, Rat.mkRat_eq_divInt, Rat.divInt_eq_div]
  positivity

theorem tryYearMatch_nonneg {l : List Char} {p : ℚ × List Char}
    (h : tryYearMatch l = some p) : 0 ≤ p.1 := by
  simp only [tryYearMatch] at h
  split at h
  · exact absurd h (by simp)
  · split at h
    · split at h
      · exact absurd h (by simp)
      · split at h
        · cases h
          exact mkYearVal_nonneg _ _
        · exact absurd h (by simp)
    · split at h
      · cases h
        exact mkYearVal_nonneg _ _
      · exact absurd h (by simp)

theorem scanYears_nonneg : ∀ (f : ℕ) (l : List Char) (q : ℚ), q ∈ scanYears f l → 0 ≤ q := by
  intro f
  induction f with
  | zero =>
    intro l q hq
    simp [scanYears] at hq
  | succ f ih =>
    intro l q hq
    cases l with
    | nil => simp [scanYears] at hq
    | cons c rest =>
      rw [scanYears] at hq
      split at hq
      · split at hq
        · rcases List.mem_cons.mp hq with rfl | hq'
          · rename_i heq
            exact tryYearMatch_nonneg heq
          · exact ih _ _ hq'
        · exact ih _ _ hq
      · exact ih _ _ hq

theorem le_foldl_max : ∀ (l : List ℚ) (a : ℚ), a ≤ l.foldl max a := by
  intro l
  induction l with
  | nil => intro a; exact le_refl a
  | cons x xs ih =>
    intro a
    calc a ≤ max a x := le_max_left a x
    _ ≤ (x :: xs).foldl max a := ih (max a x)

theorem extract_years_nonneg (text : String) : 0 ≤ extract_years_of_experience text := by
  rw [extract_years_of_experience]
  split
  · exact le_refl 0
  · rename_i q qs heq
    have hq : (0 : ℚ) ≤ q :=
      scanYears_nonneg _ _ q (heq ▸ List.mem_cons_self q qs)
    exact le_trans hq (le_foldl_max qs q)

/-! ## Claim theorems about the skill matcher -/

/-- Claim C1: match_skills intersects and subtracts the independently
extracted skill sets, sorts both result lists ascending, returns the ratio
of matched to required skills, and returns no matches, no gaps and ratio
one when the job description yields no skills, in particular for an empty
job description text. -/
theorem claim1_match_skills (r j : String) :
    (extract_skills j = [] → match_skills r j = ([], [], 1))
    ∧ match_skills r ("") = ([], [], 1)
    ∧ (match_skills r j).1.toFinset = (extract_skills r).toFinset ∩ (extract_skills j).toFinset
    ∧ (match_skills r j).2.1.toFinset = (extract_skills j).toFinset \ (extract_skills r).toFinset
    ∧ List.Sorted (· ≤ ·) (match_skills r j).1
    ∧ List.Sorted (· ≤ ·) (match_skills r j).2.1
    ∧ (match_skills r j).1.toFinset ∪ (match_skills r j).2.1.toFinset = (extract_skills j).toFinset
    ∧ (match_skills r j).1.toFinset ∩ (match_skills r j).2.1.toFinset = ∅
    ∧ (match_skills r j).2.2 =
        (if extract_skills j = [] then 1
         else ((match_skills r j).1.length : ℚ) / ((extract_skills j).length : ℚ)) := by
  have hempty : ∀ j' : String, extract_skills j' = [] → match_skills r j' = ([], [], 1) := by
    intro j' hj'
    simp [match_skills, hj']
  by_cases hj : extract_skills j = []
  · have hms := hempty j hj
    refine ⟨fun _ => hms, hempty ("") (by decide), ?_, ?_, ?_, ?_, ?_, ?_, ?_⟩ <;>
      simp [hms, hj, List.sorted_nil]
  · have h1 : (match_skills r j).1 =
        sortStrings ((extract_skills r).filter (fun s => decide (s ∈ extract_skills j))) := by
      simp [match_skills, hj]
    have h2 : (match_skills r j).2.1 =
        sortStrings ((extract_skills j).filter (fun s => decide (s ∉ extract_skills r))) := by
      simp [match_skills, hj]
    have h3 : (match_skills r j).2.2 =
        mkRat ((extract_skills r).filter (fun s => decide (s ∈ extract_skills j))).length
          (extract_skills j).length := by
      simp [match_skills, hj]
    have hfinM : ((extract_skills r).filter (fun s => decide (s ∈ extract_skills j))).toFinset =
        (extract_skills r).toFinset ∩ (extract_skills j).toFinset := by
      ext a
      simp [List.mem_filter]
    have hfinD : ((extract_skills j).filter (fun s => decide (s ∉ extract_skills r))).toFinset =
        (extract_skills j).toFinset \ (extract_skills r).toFinset := by
      ext a
      simp [List.mem_filter]
    refine ⟨fun hc => absurd hc hj, hempty ("") (by decide), ?_, ?_, ?_, ?_, ?_, ?_, ?_⟩
    · rw [h1, sortStrings_toFinset, hfinM]
    · rw [h2, sortStrings_toFinset, hfinD]
    · rw [h1]; exact sortStrings_sorted _
    · rw [h2]; exact sortStrings_sorted _
    · rw [h1, h2, sortStrings_toFinset, sortStrings_toFinset, hfinM, hfinD]
      ext a
      simp only [Finset.mem_union, Finset.mem_inter, Finset.mem_sdiff]
      tauto
    · rw [h1, h2, sortStrings_toFinset, sortStrings_toFinset, hfinM, hfinD]
      ext a
      simp only [Finset.mem_inter, Finset.mem_sdiff, Finset.not_mem_empty, iff_false]
      tauto
    · rw [if_neg hj, h3, h1, sortStrings_length, mkRat_nat_eq_div]

theorem claim1_witness :
    extract_skills ("") = [] ∧ match_skills ("python") ("") = ([], [], 1) :=
  ⟨by decide, (claim1_match_skills ("python") ("")).1 (by decide)⟩

/-! ## Claim theorems about the experience scorer -/

/-- Claim C3: compute_experience_score returns one when the job description
yields no positive year requirement and otherwise the clamped capped ratio
of extracted years; extracted years are never negative, the empty text
yields zero years, and the score lies in the unit interval. -/
theorem claim3_experience_score (r j : String) :
    compute_experience_score r j =
      (if extract_years_of_experience j ≤ 0 then 1
       else max 0 (min (extract_years_of_experience r / extract_years_of_experience j) 1))
    ∧ 0 ≤ extract_years_of_experience r
    ∧ extract_years_of_experience ("") = 0
    ∧ 0 ≤ compute_experience_score r j
    ∧ compute_experience_score r j ≤ 1 := by
  have hform : compute_experience_score r j =
      (if extract_years_of_experience j ≤ 0 then 1
       else max 0 (min (extract_years_of_experience r / extract_years_of_experience j) 1)) := rfl
  refine ⟨hform, extract_years_nonneg r, by decide, ?_, ?_⟩
  · rw [hform]
    split
    · exact zero_le_one
    · exact le_max_left 0 _
  · rw [hform]
    split
    · exact le_refl 1
    · exact max_le zero_le_one (min_le_right _ 1)

/-- Claim C8: with a fixed positive requirement, the experience score is
monotone in the candidate years and reaches exactly one as soon as the
candidate years meet the requirement. -/
theorem claim8_experience_monotone (r1 r2 j : String)
    (hreq : 0 < extract_years_of_experience j) :
    (extract_years_of_experience r1 ≤ extract_years_of_experience r2 →
      compute_experience_score r1 j ≤ compute_experience_score r2 j)
    ∧ (extract_years_of_experience j ≤ extract_years_of_experience r1 →
      compute_experience_score r1 j = 1) := by
  have hne : ¬ extract_years_of_experience j ≤ 0 := not_le.mpr hreq
  have hval : ∀ r : String, compute_experience_score r j =
      max 0 (min (extract_years_of_experience r / extract_years_of_experience j) 1) := by
    intro r
    rw [show compute_experience_score r j =
      (if extract_years_of_experience j ≤ 0 then 1
       else max 0 (min (extract_years_of_experience r / extract_years_of_experience j) 1))
      from rfl, if_neg hne]
  constructor
  · intro hc
    rw [hval r1, hval r2]
    exact max_le_max (le_refl 0)
      (min_le_min ((div_le_div_iff_of_pos_right hreq).mpr hc) (le_refl 1))
  · intro hcr
    rw [hval r1]
    have h1 : 1 ≤ extract_years_of_experience r1 / extract_years_of_experience j :=
      (one_le_div hreq).mpr hcr
    rw [min_eq_right h1, max_eq_right zero_le_one]

theorem claim8_witness :
    0 < extract_years_of_experience ("4 years")
    ∧ extract_years_of_experience ("3 years") ≤ extract_years_of_experience ("5 years")
    ∧ compute_experience_score ("3 years") ("4 years") ≤
        compute_experience_score ("5 years") ("4 years")
    ∧ extract_years_of_experience ("4 years") ≤ extract_years_of_experience ("5 years")
    ∧ compute_experience_score ("5 years") ("4 years") = 1 := by
  refine ⟨by decide, by decide, ?_, by decide, ?_⟩
  · exact (claim8_experience_monotone ("3 years") ("5 years") ("4 years") (by decide)).1 (by decide)
  · exact (claim8_experience_monotone ("5 years") ("3 years") ("4 years") (by decide)).2 (by decide)

/-! ## Claim theorem about unreachable vocabulary entries -/

theorem normalizeChars_allowed {c : Char} {l : List Char}
    (h : c ∈ normalizeChars l) : isAllowedChar c = true := by
  rw [normalizeChars] at h
  rcases List.mem_map.mp h with ⟨a, _, ha⟩
  by_cases hall : isAllowedChar a.toLower = true
  · rw [if_pos hall] at ha
    rw [← ha]
    exact hall
  · rw [if_neg hall] at ha
    rw [← ha]
    decide

theorem startsWithChars_mem {p : List Char} : ∀ {t : List Char},
    startsWithChars p t = true → ∀ c ∈ p, c ∈ t := by
  induction p with
  | nil =>
    intro t _ c hc
    simp at hc
  | cons a as ih =>
    intro t h c hc
    cases t with
    | nil => simp [startsWithChars] at h
    | cons b bs =>
      rw [startsWithChars, Bool.and_eq_true] at h
      obtain ⟨h1, h2⟩ := h
      have hab : a = b := eq_of_beq h1
      rcases List.mem_cons.mp hc with rfl | hc'
      · rw [hab]
        exact List.mem_cons_self b bs
      · exact List.mem_cons_of_mem b (ih h2 c hc')

theorem isSubstrChars_mem {p : List Char} : ∀ {t : List Char},
    isSubstrChars p t = true → ∀ c ∈ p, c ∈ t := by
  intro t
  induction t with
  | nil =>
    intro h c hc
    exact startsWithChars_mem h c hc
  | cons b ts ih =>
    intro h c hc
    rw [isSubstrChars, Bool.or_eq_true] at h
    rcases h with h | h
    · exact startsWithChars_mem h c hc
    · exact List.mem_cons_of_mem b (ih h c hc)

theorem mem_extract_skills_isSubstr {sk text : String}
    (h : sk ∈ extract_skills text) :
    isSubstrChars sk.data (normalizeChars text.data) = true := by
  rw [extract_skills] at h
  split at h
  · simp at h
  · exact (List.mem_filter.mp h).2

/-- Claim C9: the vocabulary entries containing a hyphen, a dot or a slash
can never be produced by extract_skills, because normalization replaces
every character outside lowercase letters, digits, plus and space with a
space, so no normalized text contains those characters. -/
theorem claim9_unreachable_skills (text : String) :
    ("scikit-learn" ∈ RECOGNIZED_SKILLS ∧ "node.js" ∈ RECOGNIZED_SKILLS ∧
      "ci/cd" ∈ RECOGNIZED_SKILLS)
    ∧ "scikit-learn" ∉ extract_skills text
    ∧ "node.js" ∉ extract_skills text
    ∧ "ci/cd" ∉ extract_skills text := by
  have key : ∀ sk : String, sk ∈ extract_skills text →
      ∀ c ∈ sk.data, isAllowedChar c = true := fun sk h c hc =>
    normalizeChars_allowed (isSubstrChars_mem (mem_extract_skills_isSubstr h) c hc)
  refine ⟨⟨by decide, by decide, by decide⟩, fun h => ?_, fun h => ?_, fun h => ?_⟩
  · exact absurd (key _ h '-' (by decide)) (by decide)
  · exact absurd (key _ h '.' (by decide)) (by decide)
  · exact absurd (key _ h '/' (by decide)) (by decide)

theorem claim9_witness :
    "scikit-learn" ∉ extract_skills ("using scikit-learn and node.js")
    ∧ "scikit-learn" ∈ RECOGNIZED_SKILLS :=
  ⟨(claim9_unreachable_skills ("using scikit-learn and node.js")).2.1,
   (claim9_unreachable_skills ("using scikit-learn and node.js")).1.1⟩

/-! ## Claim theorem about the final score -/

/-- Claim C4: the final score is one hundred times the weighted sum of the
three component scores with weights six tenths, three tenths and one tenth,
rounded to two decimal places; perfect components give one hundred and zero
components give zero. -/
theorem claim4_final_score :
    (∀ s k e : ℝ, compute_final_score s k e =
      pyRound2 (100 * (0.6 * s + 0.3 * k + 0.1 * e)))
    ∧ compute_final_score 1 1 1 = 100
    ∧ compute_final_score 0 0 0 = 0 := by
  have hgen : ∀ s k e : ℝ, compute_final_score s k e =
      pyRound2 (100 * (0.6 * s + 0.3 * k + 0.1 * e)) := by
    intro s k e
    rw [show compute_final_score s k e =
      pyRound2 ((SEMANTIC_SIMILARITY_WEIGHT * s + SKILL_MATCH_WEIGHT * k +
        EXPERIENCE_MATCH_WEIGHT * e) * 100) from rfl]
    simp only [SEMANTIC_SIMILARITY_WEIGHT, SKILL_MATCH_WEIGHT, EXPERIENCE_MATCH_WEIGHT]
    congr 1
    ring
  refine ⟨hgen, ?_, ?_⟩
  · rw [hgen]
    rw [show (100 : ℝ) * (0.6 * 1 + 0.3 * 1 + 0.1 * 1) = ((100 : ℤ) : ℝ) by norm_num]
    simp only [pyRound2]
    rw [show (((100 : ℤ) : ℝ)) * 100 = ((10000 : ℤ) : ℝ) by norm_num, round_intCast]
    norm_num
  · rw [hgen]
    rw [show (100 : ℝ) * (0.6 * 0 + 0.3 * 0 + 0.1 * 0) = ((0 : ℤ) : ℝ) by norm_num]
    simp only [pyRound2]
    rw [show (((0 : ℤ) : ℝ)) * 100 = ((0 : ℤ) : ℝ) by norm_num, round_intCast]
    norm_num

/-! ## Support lemmas for the similarity module and the pipeline -/

theorem avgMax_ok {s t : NDArray} (h : ¬ errCond s t) :
    average_max_cosine_similarity s t = .ok (semanticCoverage s t) := by
  unfold errCond at h
  push_neg at h
  obtain ⟨h1, h2, h3, h4, h5⟩ := h
  unfold average_max_cosine_similarity
  rw [if_neg h1, if_neg h2, if_neg (not_ne_iff.mpr h3), if_neg (not_ne_iff.mpr h4),
    if_neg (not_ne_iff.mpr h5)]

theorem avgMax_isOk_iff (s t : NDArray) :
    (average_max_cosine_similarity s t).isOk = true ↔ ¬ errCond s t := by
  by_cases hc : errCond s t
  · have hfalse : (average_max_cosine_similarity s t).isOk = false := by
      unfold average_max_cosine_similarity
      split_ifs with a1 a2 a3 a4 a5
      · rfl
      · rfl
      · rfl
      · rfl
      · rfl
      · exact absurd hc (by simp [errCond, a1, a2, a3, a4, a5])
    rw [hfalse]
    simp [hc]
  · rw [avgMax_ok hc]
    exact iff_of_true rfl hc

theorem maximum_perm {α : Type} [LinearOrder α] {l1 l2 : List α} (h : l1.Perm l2) :
    l1.maximum = l2.maximum := by
  induction h with
  | nil => rfl
  | cons x _ ih => rw [List.maximum_cons, List.maximum_cons, ih]
  | swap x y l =>
    rw [List.maximum_cons, List.maximum_cons, List.maximum_cons, List.maximum_cons,
      max_left_comm]
  | trans _ _ ih1 ih2 => rw [ih1, ih2]

theorem rowMaxVal_perm {l1 l2 : List ℝ} (h : l1.Perm l2) : rowMaxVal l1 = rowMaxVal l2 := by
  rw [rowMaxVal, rowMaxVal, maximum_perm h]

theorem semanticCoverage_perm (s t t' : NDArray) (hperm : t'.rows.Perm t.rows) :
    semanticCoverage s t' = semanticCoverage s t := by
  unfold semanticCoverage
  have hrow : ∀ srow, rowMaxVal (t'.rows.map (fun trow => cosineSim srow trow)) =
      rowMaxVal (t.rows.map (fun trow => cosineSim srow trow)) := fun srow =>
    rowMaxVal_perm (hperm.map _)
  simp only [hrow]

theorem avgMax_target_congr (s t t' : NDArray) (hshape : t'.shape = t.shape)
    (hperm : t'.rows.Perm t.rows) :
    average_max_cosine_similarity s t' = average_max_cosine_similarity s t := by
  have hsize : t'.size = t.size := by simp only [NDArray.size, hshape]
  have hndim : t'.ndim = t.ndim := by simp only [NDArray.ndim, hshape]
  have hdim1 : t'.dim1 = t.dim1 := by simp only [NDArray.dim1, hshape]
  unfold average_max_cosine_similarity
  rw [hsize, hndim, hdim1, hshape, semanticCoverage_perm s t t' hperm]

theorem clip01_nonneg (x : ℝ) : 0 ≤ clip01 x :=
  le_min (le_max_right x 0) zero_le_one

theorem clip01_le_one (x : ℝ) : clip01 x ≤ 1 :=
  min_le_right _ 1

theorem tokenize_ne_nil (text : String) : tokenize_into_sentences text ≠ [] := by
  simp only [tokenize_into_sentences]
  split
  · simp
  · split
    · simp
    · assumption

/-! ## Claim theorems about the similarity module and the pipeline -/

/-- Claim C2: the similarity computation fails exactly when a matrix is
empty, a matrix is not two-dimensional, or the vector widths differ; on any
other input it returns the clamped mean of the per-source-row maximum
cosine similarities, and the pipeline propagates a similarity error
unchanged with no partial result. -/
theorem claim2_invalid_input (s t : NDArray) (enc : List String → NDArray)
    (fmt : ℝ → String) (r j e : String) :
    ((average_max_cosine_similarity s t).isOk = true ↔ ¬ errCond s t)
    ∧ (¬ errCond s t →
        average_max_cosine_similarity s t =
          .ok (clip01 (meanList (s.rows.map (fun srow =>
            rowMaxVal (t.rows.map (fun trow => cosineSim srow trow)))))))
    ∧ (average_max_cosine_similarity (enc (tokenize_into_sentences j))
          (enc (tokenize_into_sentences r)) = .error e →
        ResumeJobFitPipeline.evaluate enc fmt r j = .error e) := by
  refine ⟨avgMax_isOk_iff s t, fun h => avgMax_ok h, fun h => ?_⟩
  simp only [ResumeJobFitPipeline.evaluate, h]

theorem claim2_witness :
    ¬ errCond wMs wMt
    ∧ average_max_cosine_similarity wMs wMt =
        .ok (clip01 (meanList (wMs.rows.map (fun srow =>
          rowMaxVal (wMt.rows.map (fun trow => cosineSim srow trow))))))
    ∧ ResumeJobFitPipeline.evaluate wEncBad wFmt ("resume text") ("jd text") =
        .error ("source_embeddings is empty. Need at least one source sentence.") :=
  ⟨by decide,
   (claim2_invalid_input wMs wMt wEncBad wFmt ("resume text") ("jd text")
     ("source_embeddings is empty. Need at least one source sentence.")).2.1 (by decide),
   (claim2_invalid_input wMs wMt wEncBad wFmt ("resume text") ("jd text")
     ("source_embeddings is empty. Need at least one source sentence.")).2.2 rfl⟩

/-- Claim C5: on a valid pair of matrices the similarity value is invariant
under any permutation of the target rows, and the returned value lies in
the unit interval. -/
theorem claim5_target_permutation (s t t' : NDArray)
    (hshape : t'.shape = t.shape) (hperm : t'.rows.Perm t.rows)
    (hvalid : ¬ errCond s t) :
    average_max_cosine_similarity s t' = average_max_cosine_similarity s t
    ∧ ∃ x : ℝ, average_max_cosine_similarity s t = .ok x ∧ 0 ≤ x ∧ x ≤ 1 := by
  refine ⟨avgMax_target_congr s t t' hshape hperm,
    ⟨semanticCoverage s t, avgMax_ok hvalid, ?_, ?_⟩⟩
  · exact clip01_nonneg _
  · exact clip01_le_one _

theorem claim5_witness :
    wMtSwap.shape = wMt.shape ∧ wMtSwap.rows.Perm wMt.rows ∧ ¬ errCond wMs wMt
    ∧ average_max_cosine_similarity wMs wMtSwap = average_max_cosine_similarity wMs wMt
    ∧ ∃ x : ℝ, average_max_cosine_similarity wMs wMt = .ok x ∧ 0 ≤ x ∧ x ≤ 1 := by
  have hp : wMtSwap.rows.Perm wMt.rows := by
    show ([[(0 : ℝ), 1], [1, 0]] : List (List ℝ)).Perm [[1, 0], [0, 1]]
    exact List.Perm.swap _ _ _
  exact ⟨rfl, hp, by decide,
    (claim5_target_permutation wMs wMt wMtSwap rfl hp (by decide)).1,
    (claim5_target_permutation wMs wMt wMtSwap rfl hp (by decide)).2⟩

/-- Claim C10: the sentence tokenizer always returns at least one sentence,
so under the embedder contract of one fixed positive dimension per batch
row, the pipeline evaluation never hits the invalid-input branch of the
similarity computation and always succeeds. -/
theorem claim10_embedder_contract (enc : List String → NDArray) (d : ℕ) (fmt : ℝ → String)
    (hd : 0 < d)
    (henc : ∀ ts : List String, ts ≠ [] → (enc ts).shape = [ts.length, d])
    (r j : String) :
    (∀ text : String, tokenize_into_sentences text ≠ [])
    ∧ (ResumeJobFitPipeline.evaluate enc fmt r j).isOk = true := by
  refine ⟨fun text => tokenize_ne_nil text, ?_⟩
  have hnec : ¬ errCond (enc (tokenize_into_sentences j)) (enc (tokenize_into_sentences r)) := by
    have hj := henc _ (tokenize_ne_nil j)
    have hr := henc _ (tokenize_ne_nil r)
    have hlj : (tokenize_into_sentences j).length ≠ 0 :=
      (List.length_pos.mpr (tokenize_ne_nil j)).ne'
    have hlr : (tokenize_into_sentences r).length ≠ 0 :=
      (List.length_pos.mpr (tokenize_ne_nil r)).ne'
    simp [errCond, NDArray.size, NDArray.ndim, NDArray.dim1, hj, hr, hlj, hlr, hd.ne']
  simp only [ResumeJobFitPipeline.evaluate, avgMax_ok hnec]
  rfl

theorem claim10_witness :
    tokenize_into_sentences ("alpha") ≠ []
    ∧ (ResumeJobFitPipeline.evaluate wEncOk wFmt ("resume a") ("jd b")).isOk = true :=
  ⟨(claim10_embedder_contract wEncOk 1 wFmt (by decide) (fun ts _ => rfl)
      ("resume a") ("jd b")).1 ("alpha"),
   (claim10_embedder_contract wEncOk 1 wFmt (by decide) (fun ts _ => rfl)
      ("resume a") ("jd b")).2⟩

/-! ## Support lemmas for the sentence tokenizer -/

theorem dw_head_not {α : Type} {p : α → Bool} {l : List α} {a : α}
    (h : (l.dropWhile p).head? = some a) : p a = false := by
  have hd := List.head?_dropWhile_not p l
  rw [h] at hd
  exact hd

theorem dw_eq_self {α : Type} {p : α → Bool} {l : List α}
    (h : ∀ a, l.head? = some a → p a = false) : l.dropWhile p = l := by
  cases l with
  | nil => rfl
  | cons b bs =>
    rw [List.dropWhile_cons, if_neg]
    rw [h b rfl]
    simp

theorem suffix_getLast? {α : Type} {l1 l2 : List α} (h : l1 <:+ l2) (hne : l1 ≠ []) :
    l1.getLast? = l2.getLast? := by
  rcases h with ⟨pre, hpre⟩
  rw [← hpre, List.getLast?_append_of_ne_nil pre hne]

theorem strip_head_not {l : List Char} {a : Char}
    (h : (pyStripChars l).head? = some a) : pyIsSpace a = false := by
  rw [pyStripChars, List.head?_reverse] at h
  have hne : (l.dropWhile pyIsSpace).reverse.dropWhile pyIsSpace ≠ [] := by
    intro hnil
    rw [hnil] at h
    exact Option.noConfusion h
  rw [suffix_getLast? (List.dropWhile_suffix pyIsSpace) hne, List.getLast?_reverse] at h
  exact dw_head_not h

theorem strip_getLast_not {l : List Char} {a : Char}
    (h : (pyStripChars l).getLast? = some a) : pyIsSpace a = false := by
  rw [pyStripChars, List.getLast?_reverse] at h
  exact dw_head_not h

theorem strip_idem (l : List Char) : pyStripChars (pyStripChars l) = pyStripChars l := by
  rcases hS : pyStripChars l with _ | ⟨c, cs⟩
  · rfl
  · rw [show pyStripChars (c :: cs) =
      (((c :: cs).dropWhile pyIsSpace).reverse.dropWhile pyIsSpace).reverse from rfl]
    have h1 : (c :: cs).dropWhile pyIsSpace = c :: cs := by
      apply dw_eq_self
      intro a ha
      have : a = c := by
        rw [show (c :: cs).head? = some c from rfl, Option.some_inj] at ha
        exact ha.symm
      subst this
      exact strip_head_not (by rw [hS]; rfl)
    have h2 : (c :: cs).reverse.dropWhile pyIsSpace = (c :: cs).reverse := by
      apply dw_eq_self
      intro a ha
      rw [List.head?_reverse] at ha
      exact strip_getLast_not (hS ▸ ha)
    rw [h1, h2, List.reverse_reverse]

theorem mkFragments_trimmed (text : String) :
    ∀ s ∈ mkFragments text, pyStrip s = s ∧ s ≠ "" := by
  intro s hs
  rw [mkFragments] at hs
  obtain ⟨hmem, hpred⟩ := List.mem_filter.mp hs
  refine ⟨?_, of_decide_eq_true hpred⟩
  rcases List.mem_map.mp hmem with ⟨l, _, hl⟩
  rw [← hl]
  show String.mk (pyStripChars (pyStripChars l)) = String.mk (pyStripChars l)
  rw [strip_idem]

/-! ## Claim theorems about the sentence tokenizer -/

/-- Claim C6 counterexample: on the text of a space, a dot and a space the
tokenizer returns the original text unstripped as its single fragment,
while the claim requires the original stripped text; the returned element
is also not trimmed. -/
theorem claim6_counterexample :
    tokenize_into_sentences (" . ") = [" . "]
    ∧ pyStrip (" . ") = "."
    ∧ (" . " : String) ≠ "." :=
  ⟨by decide, by decide, by decide⟩

/-- Claim C6 as amended: the tokenizer collapses newlines, splits on dots,
trims fragments and drops the empty ones; empty or whitespace input gives a
single empty sentence; when no fragment survives on other input it falls
back to the whole original text, unstripped; every surviving fragment is a
trimmed non-empty string. -/
theorem claim6_amended (text : String) :
    tokenize_into_sentences text =
      (if text = "" || pyStrip text = "" then [""]
       else if mkFragments text = [] then [text] else mkFragments text)
    ∧ (∀ s ∈ mkFragments text, pyStrip s = s ∧ s ≠ "") :=
  ⟨rfl, mkFragments_trimmed text⟩

theorem claim6_witness :
    ("a" ∈ mkFragments ("a. b")) ∧ pyStrip ("a") = "a" ∧ ("a" : String) ≠ "" :=
  ⟨by decide, ((claim6_amended ("a. b")).2 ("a") (by decide)).1,
   ((claim6_amended ("a. b")).2 ("a") (by decide)).2⟩

/-! ## Claim theorem about the kubernetes scenario -/

/-- Claim C7: evaluating the skill matcher at the empty resume and the job
description consisting of the word kubernetes. The single-letter vocabulary
entry r occurs as a substring of the word kubernetes, so the code reports
the missing skills kubernetes and r where the claim, the specification
scenario, and the extractor docstring expect kubernetes alone; matched
skills are empty and the experience score is one as claimed. -/
theorem claim7_kubernetes_scenario :
    match_skills ("") ("kubernetes") = ([], ["kubernetes", "r"], 0)
    ∧ extract_skills ("kubernetes") = ["r", "kubernetes"]
    ∧ compute_experience_score ("") ("kubernetes") = 1 :=
  ⟨by decide, by decide, by decide⟩

